import Mathlib

/-!
Verification of the green_power_backend telemetry ingestion core.

This file gives a shallow embedding, in Lean 4, of the two ingestion
subsystems of the repository:

* the TCP inverter protocol handler of
  `solar/tcp_socket_server/server.py` (binary payload codec,
  shared round-robin response cycle, per-connection session loop,
  triple-response aggregation and persistence trigger), and
* the MQTT ingestion pipeline of `mqtt_broker/subscriber.py`
  (per-topic reassembly handlers for grid/meter, generator and
  environment topics, validation, persistence and broadcast),
  together with the generator record validator of
  `generator/models.py` and the environment record shape of
  `environment/models.py`.

Modelling conventions:

* JSON payloads are represented by the inductive type `J`; Python
  dictionaries by association lists with Python `dict` semantics
  (unique keys, insertion order, set-replaces-in-place).
* IEEE-754 decoding of a 4-byte chunk (`struct.unpack('!f', ...)`) is
  abstracted to its 32-bit big-endian bit pattern: every claim treated
  here depends only on the success/failure and count of chunk decodes,
  never on the numeric value of a float.
* External effects (MongoDB inserts, channel-layer group sends) are
  reified as effect values in the returned traces; fallibility of an
  insert is an oracle `Bool` parameter.
-/

namespace GreenPower

/-- JSON-ish runtime values as produced by `json.loads` plus the
`datetime` capture instants stamped by the handlers (`jtime`). -/
inductive J where
  | jnull : J
  | jbool (b : Bool) : J
  | jint (n : Int) : J
  | jfloat (q : Rat) : J
  | jstr (s : String) : J
  | jtime (t : Nat) : J
  | jarr (xs : List J) : J
  | jobj (fields : List (String × J)) : J

/-- Python truthiness of a runtime value. -/
def truthy : J → Bool
  | .jnull => false
  | .jbool b => b
  | .jint n => n != 0
  | .jfloat q => q != 0
  | .jstr s => s != ""
  | .jtime _ => true
  | .jarr xs => !xs.isEmpty
  | .jobj xs => !xs.isEmpty

/-- Python `str()` of a runtime value, as used for point ids in the
generator handler.  Faithful for ints, strings, booleans and `None`;
the textual form of floats and containers is abstracted (no claim
depends on a float- or container-valued point id). -/
def pyStr : J → String
  | .jint n => toString n
  | .jstr s => s
  | .jbool true => "True"
  | .jbool false => "False"
  | .jnull => "None"
  | .jfloat q => toString q
  | .jtime t => toString t
  | .jarr _ => "<list>"
  | .jobj _ => "<dict>"

section AList

variable {κ : Type} {α : Type} [DecidableEq κ]

/-- `d.get(k)`: first value stored under `k`, if any. -/
def aGet : List (κ × α) → κ → Option α
  | [], _ => none
  | p :: rest, k => if p.1 = k then some p.2 else aGet rest k

/-- `d[k] = v` on a Python dict: replace in place if the key exists,
append at the end otherwise. -/
def aSet : List (κ × α) → κ → α → List (κ × α)
  | [], k, v => [(k, v)]
  | p :: rest, k, v => if p.1 = k then (k, v) :: rest else p :: aSet rest k v

/-- `d.pop(k, ...)` key removal: drops the first entry stored under `k`. -/
def aRemove : List (κ × α) → κ → List (κ × α)
  | [], _ => []
  | p :: rest, k => if p.1 = k then rest else p :: aRemove rest k

/-- `d.update(d2)`: fold `aSet` over the entries of `d2` in order. -/
def aUpdate (d d2 : List (κ × α)) : List (κ × α) :=
  d2.foldl (fun acc p => aSet acc p.1 p.2) d

/-- The key list of an association list. -/
def aKeys (d : List (κ × α)) : List κ := d.map Prod.fst

end AList

/-- A Python dict with string keys and JSON values. -/
abbrev PyDict := List (String × J)

/-- Python `==` on runtime values: numeric kinds compare by value
(`1 == 1.0`, `True == 1`), `None` only equals `None`, lists compare
pointwise, dicts compare key-by-key (order-insensitive; operands are
assumed to have unique keys, the Python `dict` invariant). -/
def pyEq : J → J → Bool
  | .jnull, .jnull => true
  | .jbool a, .jbool b => a == b
  | .jbool a, .jint b => (if a then (1 : Int) else 0) == b
  | .jint a, .jbool b => a == (if b then (1 : Int) else 0)
  | .jbool a, .jfloat q => (if a then (1 : Rat) else 0) == q
  | .jfloat q, .jbool b => q == (if b then (1 : Rat) else 0)
  | .jint a, .jint b => a == b
  | .jint a, .jfloat q => ((a : Rat)) == q
  | .jfloat q, .jint b => q == ((b : Rat))
  | .jfloat p, .jfloat q => p == q
  | .jstr a, .jstr b => a == b
  | .jtime a, .jtime b => a == b
  | .jarr xs, .jarr ys => pyEqList xs ys
  | .jobj xs, .jobj ys => xs.length == ys.length && pyEqObj xs ys
  | _, _ => false
where
  /-- Pointwise Python equality of two lists. -/
  pyEqList : List J → List J → Bool
    | [], [] => true
    | x :: xs, y :: ys => pyEq x y && pyEqList xs ys
    | _, _ => false
  /-- Every key of the first object is present in the second with a
  Python-equal value. -/
  pyEqObj : List (String × J) → List (String × J) → Bool
    | [], _ => true
    | (k, v) :: rest, ys =>
      (match aGet ys k with
       | some v2 => pyEq v v2
       | none => false) && pyEqObj rest ys

/-! ## Binary payload codec (`TCPSocketServer._process_response`) -/

/-- Value of one hex digit, both cases accepted (`bytes.fromhex`). -/
def hexDigitVal (c : Char) : Option Nat :=
  if 48 ≤ c.toNat ∧ c.toNat ≤ 57 then some (c.toNat - 48)
  else if 65 ≤ c.toNat ∧ c.toNat ≤ 70 then some (c.toNat - 55)
  else if 97 ≤ c.toNat ∧ c.toNat ≤ 102 then some (c.toNat - 87)
  else none

/-- Whether `c` is a hexadecimal digit. -/
def isHexDigit (c : Char) : Bool := (hexDigitVal c).isSome

/-- Pair up hex digits into byte values; fails on an odd count or a
non-hex character (the `ValueError` of `bytes.fromhex`). -/
def fromhexPairs : List Char → Option (List Nat)
  | [] => some []
  | [_] => none
  | c1 :: c2 :: rest =>
    match hexDigitVal c1, hexDigitVal c2, fromhexPairs rest with
    | some h1, some h2, some bs => some ((h1 * 16 + h2) :: bs)
    | _, _, _ => none

/-- `bytes.fromhex`: ASCII spaces between digits are skipped, then the
digits are paired into bytes. -/
def fromhex (l : List Char) : Option (List Nat) :=
  fromhexPairs (l.filter (fun c => c ≠ ' '))

/-- Big-endian byte sequence to natural number. -/
def beNat (bs : List Nat) : Nat := bs.foldl (fun acc b => acc * 256 + b) 0

/-- `struct.unpack('!q', ...)`: signed two's-complement 64-bit value. -/
def int64OfBytes (bs : List Nat) : Int :=
  let n := beNat bs
  if n < 2 ^ 63 then (n : Int) else (n : Int) - 2 ^ 64

/-- Chunk size in hex characters for a response slot
(`16 if index == 2 else 8`). -/
def chunkSize (index : Nat) : Nat := if index = 2 then 16 else 8

/-- Decode one chunk: hex-decode it, then unpack `'!f'` (exactly 4
bytes; the IEEE-754 value is abstracted to its 32-bit pattern) when the
chunk size is 8, `'!q'` (exactly 8 bytes) otherwise.  `none` is the
per-chunk `struct.error`/`ValueError` that the source skips. -/
def decodeChunk (cs : Nat) (chunk : List Char) : Option Int :=
  match fromhex chunk with
  | none => none
  | some bs =>
    if cs = 8 then
      if bs.length = 4 then some ((beNat bs : Int)) else none
    else
      if bs.length = 8 then some (int64OfBytes bs) else none

/-- Suffix after the first occurrence of the marker `"0103"`;
`none` when the marker does not occur (`"0103" not in hex_response`). -/
def splitMarker : List Char → Option (List Char)
  | [] => none
  | c :: rest =>
    if (c :: rest).take 4 = ['0', '1', '0', '3'] then some ((c :: rest).drop 4)
    else splitMarker rest

/-- The slices `[payload[i:i+cs] for i in range(0, len(payload), cs)]`:
`range(0, n, cs)` has `ceil(n / cs)` elements for positive `cs`. -/
def chunksOf (cs : Nat) (l : List Char) : List (List Char) :=
  if cs = 0 then []
  else (List.range ((l.length + cs - 1) / cs)).map (fun i => (l.drop (i * cs)).take cs)

/-- The conversion loop: failed chunks are skipped, successful values
appended in order. -/
def convertChunks (cs : Nat) : List (List Char) → List Int
  | [] => []
  | c :: rest =>
    match decodeChunk cs c with
    | some v => v :: convertChunks cs rest
    | none => convertChunks cs rest

/-- `TCPSocketServer._process_response`: require the `"0103"` marker,
drop the two residue hex characters after it, require the remaining
length to be an exact multiple of the slot's chunk size, then decode
chunk by chunk, skipping per-chunk failures. -/
def processResponse (index : Nat) (hexResponse : List Char) : List Int :=
  match splitMarker hexResponse with
  | none => []
  | some post =>
    let payload := post.drop 2
    let cs := chunkSize index
    if payload.length % cs ≠ 0 then []
    else convertChunks cs (chunksOf cs payload)

/-! ## TCP session handler (`TCPSocketServer.handle_client`) -/

/-- The fixed heartbeat marker `b'GWCCCL0001'`. -/
def HEARTBEAT_PACKET : List Nat :=
  [0x47, 0x57, 0x43, 0x43, 0x43, 0x4C, 0x30, 0x30, 0x30, 0x31]

/-- The three fixed outbound Modbus-style frames. -/
def RESPONSE_PACKETS : List (List Nat) :=
  [[0x01, 0x26, 0x00, 0x00, 0x00, 0x06, 0x01, 0x03, 0x0B, 0xB7, 0x00, 0x0A],
   [0x01, 0x6E, 0x00, 0x00, 0x00, 0x06, 0x01, 0x03, 0x0B, 0xED, 0x00, 0x06],
   [0x01, 0xB6, 0x00, 0x00, 0x00, 0x06, 0x01, 0x03, 0x0C, 0x83, 0x00, 0x08]]

/-- The shared response cycle `itertools.cycle(enumerate(response_packets))`
at position `pos`: the pulled `(index, frame)` pair and the next position. -/
def responseCycle (pos : Nat) : (Nat × List Nat) × Nat :=
  ((pos % 3, RESPONSE_PACKETS.getD (pos % 3) []), pos + 1)

/-- Index returned by the `k`-th pull (starting from position 0). -/
def pullIndexes (n : Nat) : List Nat :=
  (List.range n).map (fun k => (responseCycle k).1.1)

/-- `b.hex().upper()`: uppercase hex encoding of a byte sequence. -/
def hexUpper (bs : List Nat) : List Char :=
  bs.foldr (fun b acc =>
    (if (b % 256) / 16 < 10 then Char.ofNat (48 + (b % 256) / 16)
     else Char.ofNat (55 + (b % 256) / 16)) ::
    (if b % 16 < 10 then Char.ofNat (48 + b % 16)
     else Char.ofNat (55 + b % 16)) :: acc) []

/-- Result of one `recv` call: delivered bytes (empty means the peer
closed the connection) or a timeout / socket error. -/
inductive RecvEvent where
  | bytes (b : List Nat) : RecvEvent
  | timedOut : RecvEvent

/-- Accumulated device session: decoded value lists keyed by response
slot (the key `i` models the dict key `"response_<i>"`). -/
abbrev AccMap := List (Nat × List Int)

/-- Observable effects of one connection handler run. -/
inductive TCPEffect where
  | send (index : Nat) (frame : List Nat) : TCPEffect
  | store (m : AccMap) : TCPEffect
  deriving DecidableEq

/-- `TCPSocketServer._store_data`: refuses a map that does not hold
exactly 3 entries, otherwise builds the solar document from the three
slots (missing slots default to `[]` via `dict.get`). -/
def storeData (m : AccMap) : Option (List Int × List Int × List Int) :=
  if m.length = 3 then
    some ((aGet m 0).getD [], (aGet m 1).getD [], (aGet m 2).getD [])
  else none

/-- `TCPSocketServer.handle_client` as a trace function: consume the
`recv` results in order, starting from shared cycle position `pos` and
accumulated session `acc`, and return the emitted effects.  An empty
read or a timeout breaks the loop; a packet differing from the
heartbeat marker is logged and ignored; a heartbeat triggers one
atomic cycle pull, the send of the pulled frame, and the processing of
the next `recv` result as the device reply. -/
def runClient (hb : List Nat) : Nat → AccMap → List RecvEvent → List TCPEffect
  | _, _, [] => []
  | _, _, .timedOut :: _ => []
  | pos, acc, .bytes b :: rest =>
    if b = [] then []
    else if b = hb then
      .send (pos % 3) (RESPONSE_PACKETS.getD (pos % 3) []) ::
        (match rest with
         | [] => []
         | .timedOut :: _ => []
         | .bytes r :: rest2 =>
           if r = [] then []
           else
             match processResponse (pos % 3) (hexUpper r) with
             | [] => runClient hb (pos + 1) acc rest2
             | v :: vs =>
               let acc2 := aSet acc (pos % 3) (v :: vs)
               if acc2.length = 3 then .store acc2 :: runClient hb (pos + 1) [] rest2
               else runClient hb (pos + 1) acc2 rest2)
    else runClient hb pos acc rest
termination_by structural _ _ evs => evs

/-! ## Validators (`generator/models.py`, `environment/models.py`) -/

/-- Parse an optional sign followed by decimal digits, as accepted by
the lax `int` coercion of the validation layer for strings.  (Python's
tolerance for surrounding whitespace and underscores is abstracted.) -/
def parseIntStr (s : String) : Option Int :=
  match s.toList with
  | '-' :: c :: cs =>
    if (c :: cs).all (fun d => 48 ≤ d.toNat ∧ d.toNat ≤ 57) then
      some (-(((c :: cs).foldl (fun acc d => acc * 10 + (d.toNat - 48)) 0 : Nat) : Int))
    else none
  | '+' :: c :: cs =>
    if (c :: cs).all (fun d => 48 ≤ d.toNat ∧ d.toNat ≤ 57) then
      some (((c :: cs).foldl (fun acc d => acc * 10 + (d.toNat - 48)) 0 : Nat) : Int)
    else none
  | c :: cs =>
    if (c :: cs).all (fun d => 48 ≤ d.toNat ∧ d.toNat ≤ 57) then
      some (((c :: cs).foldl (fun acc d => acc * 10 + (d.toNat - 48)) 0 : Nat) : Int)
    else none
  | [] => none

/-- Lax coercion of a runtime value to `int`: ints pass, integral
floats pass, decimal strings pass; booleans, `None` and containers are
rejected (pydantic v2 rejects `bool` for `int`). -/
def coerceInt : J → Option Int
  | .jint n => some n
  | .jfloat q => if q.den = 1 then some q.num else none
  | .jstr s => parseIntStr s
  | _ => none

/-- Lax coercion of a runtime value to `float`: floats and ints pass,
integer-valued strings pass (full float-string parsing abstracted);
everything else is rejected. -/
def coerceFloat : J → Option Rat
  | .jint n => some ((n : Rat))
  | .jfloat q => some q
  | .jstr s => (parseIntStr s).map (fun n => ((n : Rat)))
  | _ => none

/-- A value admissible for `GeneratorPayload`
(`Dict[str, Union[int, float, str]]`). -/
def isScalar : J → Bool
  | .jint _ => true
  | .jfloat _ => true
  | .jstr _ => true
  | _ => false

/-- A generator record that passed `GeneratorDataModel` validation:
non-negative epoch timestamp plus the open point payload. -/
structure GenRecord where
  ts : Int
  payload : PyDict

/-- `GeneratorDataModel.from_flat_dict`: pop `"timestamp"` (defaulting
to `None`), validate the remaining entries against
`Dict[str, Union[int, float, str]]` and the timestamp against
`int >= 0`; any failure is the `ValidationError` the caller catches.
Note the pop mutates the dict that the caller goes on to persist. -/
def genFromFlatDict (d : PyDict) : Except Unit GenRecord :=
  let ts := (aGet d "timestamp").getD .jnull
  let rest := aRemove d "timestamp"
  if rest.all (fun p => isScalar p.2) then
    match coerceInt ts with
    | some n => if 0 ≤ n then .ok ⟨n, rest⟩ else .error ()
    | none => .error ()
  else .error ()

/-- `GeneratorDataModel.model_dump`: `{"timestamp": ts, **payload}`. -/
def genDump (r : GenRecord) : PyDict := ("timestamp", .jint r.ts) :: r.payload

/-- An environment record that passed the environment record shape
(`EnvironmentData` in `environment/models.py`, imported by the
subscriber under the name `EnvironmentDataModel`). -/
structure EnvRecord where
  pm1 : Int
  pm2 : Int
  pm10 : Int
  humidity : Rat
  temp1 : Rat
  dewPoint : Rat
  timestamp : J

/-- Field lookup honouring the alias first, then the field name
(`validate_by_name = True`). -/
def envField (d : PyDict) (al fieldName : String) : Option J :=
  match aGet d al with
  | some v => some v
  | none => aGet d fieldName

/-- Whether a value is acceptable for the `datetime` field: the
stamped capture instant, or an epoch number (ISO-string parsing is
abstracted; the pipeline always stamps a `jtime` before validating). -/
def datetimeOk : J → Bool
  | .jtime _ => true
  | .jint _ => true
  | .jfloat _ => true
  | _ => false

/-- `EnvironmentData(**payload)`: three particulate-matter ints, three
float fields, and a datetime timestamp; extra fields are ignored. -/
def envValidate (d : PyDict) : Option EnvRecord :=
  match envField d "pm1_0(ug/m3)" "pm1_0" |>.bind coerceInt,
        envField d "pm2_5(ug/m3)" "pm2_5" |>.bind coerceInt,
        envField d "pm10_0(ug/m3)" "pm10_0" |>.bind coerceInt,
        envField d "hum(%)" "humidity" |>.bind coerceFloat,
        envField d "temp_1(*C)" "temp_1" |>.bind coerceFloat,
        envField d "dp(*C)" "dew_point" |>.bind coerceFloat,
        aGet d "timestamp" with
  | some a, some b, some c, some h, some t, some dp, some ts =>
    if datetimeOk ts then some ⟨a, b, c, h, t, dp, ts⟩ else none
  | _, _, _, _, _, _, _ => none

/-- `model_dump` of a validated environment record, in field
declaration order and under the field names. -/
def envDump (r : EnvRecord) : PyDict :=
  [("pm1_0", .jint r.pm1), ("pm2_5", .jint r.pm2), ("pm10_0", .jint r.pm10),
   ("humidity", .jfloat r.humidity), ("temp_1", .jfloat r.temp1),
   ("dew_point", .jfloat r.dewPoint), ("timestamp", r.timestamp)]

/-! ## MQTT reassembly handlers (`MQTTSubscriber`) -/

/-- The fixed environment topic. -/
def ENV_TOPIC : String := "CCCL/PURBACHAL/ENV_01"

/-- The fixed generator topic. -/
def GEN_TOPIC : String := "CCCL/PURBACHAL/ENM_01"

/-- Destination collection for generator readings. -/
def GEN_COLLECTION : String := "generator_data"

/-- Destination collection for environment readings. -/
def ENV_COLLECTION : String := "environment_data"

/-- Grid topic mapping, restricted to the destination collections; the
record shapes `RTDataModel` and `ENYNowDataModel` live in
`grid/models.py`, which is not part of the sources, and are passed to
the grid handler as abstract validators. -/
def TOPIC_MAPPING : List (String × String) :=
  [("MQTT_RT_DATA", "grid_rt_data"), ("MQTT_ENY_NOW", "grid_eny_now")]

/-- Observable effects of one message dispatch: a MongoDB
`insert_one` attempt (with its success flag), a group send to the
realtime fan-out group, or the unhandled-topic warning. -/
inductive MEffect where
  | insert (coll : String) (doc : PyDict) (ok : Bool) : MEffect
  | broadcast (topic : String) (data : PyDict) : MEffect
  | logUnhandled (topic : String) : MEffect

/-- `MQTTSubscriber._handle_env_data`: stamp the capture time over any
incoming `timestamp`, validate, insert a copy of the stamped payload,
and broadcast the validated dump only if the insert succeeded; a
validation or insert failure is logged and produces no broadcast. -/
def handleEnvData (insOk : Bool) (now : J) (topic : String) (payload : PyDict) :
    List MEffect :=
  let p := aSet payload "timestamp" now
  match envValidate p with
  | none => []
  | some v =>
    if insOk then [.insert ENV_COLLECTION p true, .broadcast topic (envDump v)]
    else [.insert ENV_COLLECTION p false]

/-- `payload.get("data", [{}])[0]`: take the first entry of the data
array (an absent key defaults to `[{}]`, hence an empty dict); an
empty sequence or a non-indexable value raises. -/
def getDataPoint (payload : PyDict) : Except Unit J :=
  match (aGet payload "data").getD (.jarr [.jobj []]) with
  | .jarr [] => .error ()
  | .jarr (x :: _) => .ok x
  | .jstr s =>
    match s.toList with
    | [] => .error ()
    | c :: _ => .ok (.jstr (String.mk [c]))
  | _ => .error ()

/-- View a value as a dict, as required by `.get` calls on it. -/
def asObj : J → Option PyDict
  | .jobj xs => some xs
  | _ => none

/-- The point-flattening comprehension
`{str(p["id"]): p["val"] for p in data_point.get("point", [])}`:
each element must be a dict holding both `"id"` and `"val"`; iterating
a non-sequence, or any per-element lookup failure, raises.  Iterating
an empty string or empty dict yields no points. -/
def buildPoints : J → Option PyDict
  | .jarr xs =>
    xs.foldl
      (fun acc p => acc.bind (fun d =>
        match p with
        | .jobj po =>
          match aGet po "id", aGet po "val" with
          | some i, some v => some (aSet d (pyStr i) v)
          | _, _ => none
        | _ => none))
      (some [])
  | .jstr "" => some []
  | .jobj [] => some []
  | _ => none

/-- `MQTTSubscriber._handle_generator_data` on one topic session:
returns the new session content and the emitted effects.  Any raised
exception (malformed data array, non-dict data point, malformed point
list, failed insert) is caught and clears the session; an empty data
point returns with the session untouched; a fragment whose timestamp
(`None` when absent) equals the session's stored timestamp (`None`
when absent) takes the completion path: merge, promote the flattened
key `"0"` to `device_id` (defaulting to `None`), validate, insert the
validated copy (which the validator has stripped of `"timestamp"`),
broadcast the validated dump, clear; otherwise merge only. -/
def genStep (insOk : Bool) (topic : String) (session : PyDict) (payload : PyDict) :
    PyDict × List MEffect :=
  match getDataPoint payload with
  | .error _ => ([], [])
  | .ok dp =>
    if truthy dp = false then (session, [])
    else
      match asObj dp with
      | none => ([], [])
      | some dpd =>
        let ts := (aGet dpd "tp").getD .jnull
        match buildPoints ((aGet dpd "point").getD (.jarr [])) with
        | none => ([], [])
        | some pts =>
          let doc := aUpdate [("timestamp", ts)] pts
          if pyEq ((aGet session "timestamp").getD .jnull) ts then
            let s1 := aUpdate session doc
            let dev := (aGet s1 "0").getD .jnull
            let s2 := aSet (aRemove s1 "0") "device_id" dev
            match genFromFlatDict s2 with
            | .error _ => ([], [])
            | .ok v =>
              let ins := aRemove s2 "timestamp"
              if insOk then
                ([], [.insert GEN_COLLECTION ins true, .broadcast topic (genDump v)])
              else ([], [.insert GEN_COLLECTION ins false])
          else (aUpdate session doc, [])

/-- `MQTTSubscriber._handle_grid_data` on one topic session: merge the
fragment, and on the end-marker sentinel (`payload.get('isend') ==
'1'`) complete: rename `id` to `device_id` (a missing `id` raises),
stamp the capture time, validate with the topic's registered shape,
insert a copy, broadcast the validated dump, and clear the session in
`finally` whatever happened.  The record shape is an abstract
parameter (modelled from the spec: `grid/models.py` is not in the
sources). -/
def gridStep (validate : PyDict → Option PyDict) (coll : String) (insOk : Bool)
    (now : J) (topic : String) (session : PyDict) (payload : PyDict) :
    PyDict × List MEffect :=
  let s1 := aUpdate session payload
  if pyEq ((aGet payload "isend").getD .jnull) (.jstr "1") then
    match aGet s1 "id" with
    | none => ([], [])
    | some idv =>
      let s2 := aSet (aRemove s1 "id") "device_id" idv
      let s3 := aSet s2 "timestamp" now
      match validate s3 with
      | none => ([], [])
      | some dump =>
        if insOk then ([], [.insert coll s3 true, .broadcast topic dump])
        else ([], [.insert coll s3 false])
  else (s1, [])

/-- The per-topic session table `session_data`. -/
abbrev Sessions := List (String × PyDict)

/-- `MQTTSubscriber._handle_message`: dispatch by topic to the grid,
environment or generator handler (`setdefault` materialises the
topic's session), and log a warning for any other topic. -/
def handleMessage (vrt veny : PyDict → Option PyDict) (insOk : Bool) (now : J)
    (sessions : Sessions) (topic : String) (payload : PyDict) :
    Sessions × List MEffect :=
  match aGet TOPIC_MAPPING topic with
  | some coll =>
    let validate := if topic = "MQTT_RT_DATA" then vrt else veny
    let stepped := gridStep validate coll insOk now topic
      ((aGet sessions topic).getD []) payload
    (aSet sessions topic stepped.1, stepped.2)
  | none =>
    if topic = ENV_TOPIC then (sessions, handleEnvData insOk now topic payload)
    else if topic = GEN_TOPIC then
      let stepped := genStep insOk topic ((aGet sessions topic).getD []) payload
      (aSet sessions topic stepped.1, stepped.2)
    else (sessions, [.logUnhandled topic])



/-! ## Codec lemmas -/

theorem isHexDigit_ne_space {c : Char} (h : isHexDigit c = true) : c ≠ ' ' := by
  intro he
  subst he
  simp [isHexDigit, hexDigitVal] at h

theorem fromhexPairs_allHex :
    ∀ l : List Char, (∀ c ∈ l, isHexDigit c = true) → l.length % 2 = 0 →
      ∃ bs, fromhexPairs l = some bs ∧ bs.length = l.length / 2
  | [], _, _ => ⟨[], rfl, rfl⟩
  | [_], _, hlen => by simp at hlen
  | c1 :: c2 :: rest, hhex, hlen => by
    have h1 : isHexDigit c1 = true := hhex c1 (by simp)
    have h2 : isHexDigit c2 = true := hhex c2 (by simp)
    obtain ⟨v1, hv1⟩ := Option.isSome_iff_exists.mp h1
    obtain ⟨v2, hv2⟩ := Option.isSome_iff_exists.mp h2
    have hlen2 : rest.length % 2 = 0 := by
      simp [List.length_cons] at hlen
      omega
    obtain ⟨bs, hbs, hbl⟩ :=
      fromhexPairs_allHex rest (fun c hc => hhex c (by simp [hc])) hlen2
    refine ⟨(v1 * 16 + v2) :: bs, ?_, ?_⟩
    · simp [fromhexPairs, hv1, hv2, hbs]
    · simp [hbl, List.length_cons]
      omega

theorem fromhex_allHex {l : List Char} (hhex : ∀ c ∈ l, isHexDigit c = true)
    (hlen : l.length % 2 = 0) :
    ∃ bs, fromhex l = some bs ∧ bs.length = l.length / 2 := by
  have hfilter : l.filter (fun c => c ≠ ' ') = l := by
    rw [List.filter_eq_self]
    intro a ha
    simpa using isHexDigit_ne_space (hhex a ha)
  unfold fromhex
  rw [hfilter]
  exact fromhexPairs_allHex l hhex hlen

theorem chunkSize_cases (index : Nat) : chunkSize index = 8 ∨ chunkSize index = 16 := by
  unfold chunkSize
  split <;> simp

theorem chunkSize_pos (index : Nat) : 0 < chunkSize index := by
  rcases chunkSize_cases index with h | h <;> omega

theorem decodeChunk_allHex {cs : Nat} {chunk : List Char}
    (hcs : cs = 8 ∨ cs = 16) (hlen : chunk.length = cs)
    (hhex : ∀ c ∈ chunk, isHexDigit c = true) :
    ∃ v, decodeChunk cs chunk = some v := by
  have heven : chunk.length % 2 = 0 := by rcases hcs with h | h <;> omega
  obtain ⟨bs, hbs, hbl⟩ := fromhex_allHex hhex heven
  rcases hcs with h | h
  · subst h
    have hb4 : bs.length = 4 := by omega
    exact ⟨(beNat bs : Int), by simp [decodeChunk, hbs, hb4]⟩
  · subst h
    have hb8 : bs.length = 8 := by omega
    exact ⟨int64OfBytes bs, by simp [decodeChunk, hbs, hb8]⟩

theorem chunksOf_spec (cs : Nat) (l : List Char) (hpos : 0 < cs)
    (hmod : l.length % cs = 0) :
    (chunksOf cs l).length = l.length / cs ∧
    ∀ c ∈ chunksOf cs l, c.length = cs ∧ ∀ x ∈ c, x ∈ l := by
  obtain ⟨k, hk⟩ := Nat.dvd_of_mod_eq_zero hmod
  have hcount : (l.length + cs - 1) / cs = k := by
    rw [hk]
    rcases Nat.eq_zero_or_pos k with h0 | h0
    · rw [h0, Nat.mul_zero, Nat.zero_add]
      exact Nat.div_eq_of_lt (by omega)
    · have h1 : cs * k + cs - 1 = cs * k + (cs - 1) := by omega
      rw [h1, Nat.mul_add_div hpos, Nat.div_eq_of_lt (by omega), Nat.add_zero]
  have hdiv : l.length / cs = k := by
    rw [hk]
    exact Nat.mul_div_cancel_left _ hpos
  constructor
  · rw [chunksOf, if_neg (by omega), List.length_map, List.length_range, hcount, hdiv]
  · intro c hc
    rw [chunksOf, if_neg (by omega)] at hc
    obtain ⟨i, hi, rfl⟩ := List.mem_map.mp hc
    rw [List.mem_range, hcount] at hi
    have hmul : cs * (i + 1) ≤ cs * k := Nat.mul_le_mul_left cs (by omega)
    have hexp : cs * (i + 1) = i * cs + cs := by ring
    constructor
    · rw [List.length_take, List.length_drop, hk]
      omega
    · intro x hx
      exact List.drop_subset _ _ (List.take_subset _ _ hx)

theorem convertChunks_length_countP (cs : Nat) :
    ∀ chunks : List (List Char),
      (convertChunks cs chunks).length =
        chunks.countP (fun c => (decodeChunk cs c).isSome) := by
  intro chunks
  induction chunks with
  | nil => simp [convertChunks]
  | cons c rest ih =>
    rw [convertChunks]
    rcases h : decodeChunk cs c with _ | v <;>
      simp [List.countP_cons, h, ih]

theorem convertChunks_mem (cs : Nat) {v : Int} :
    ∀ {chunks : List (List Char)} {c : List Char}, c ∈ chunks →
      decodeChunk cs c = some v → v ∈ convertChunks cs chunks := by
  intro chunks
  induction chunks with
  | nil => intro c h; simp at h
  | cons c0 rest ih =>
    intro c hc hv
    rcases List.mem_cons.mp hc with h | h
    · subst h
      rw [convertChunks, hv]
      simp
    · rw [convertChunks]
      rcases h0 : decodeChunk cs c0 with _ | v0
      · exact ih h hv
      · exact List.mem_cons_of_mem _ (ih h hv)


/-- The branch structure of `processResponse` once the marker is found. -/
theorem processResponse_found {index : Nat} {s post : List Char}
    (hsplit : splitMarker s = some post) :
    processResponse index s =
      if (post.drop 2).length % chunkSize index ≠ 0 then []
      else convertChunks (chunkSize index) (chunksOf (chunkSize index) (post.drop 2)) := by
  simp only [processResponse, hsplit]

/-- **C1** (amended): for every slot index and every hex payload
containing the marker `"0103"`, the decoder strips the marker and the
two following residue hex characters; when the remaining length is an
exact multiple of the slot chunk size (16 hex characters for slot 2, 8
otherwise) decode returns exactly `remaining / chunk_size` values, and
for any other remaining length decode returns the empty sequence. -/
theorem claim1_decode_count (index : Nat) (s post : List Char)
    (hsplit : splitMarker s = some post)
    (hhex : ∀ c ∈ post, isHexDigit c = true) :
    ((post.length - 2) % chunkSize index = 0 →
      (processResponse index s).length = (post.length - 2) / chunkSize index) ∧
    ((post.length - 2) % chunkSize index ≠ 0 → processResponse index s = []) := by
  have hdl : (post.drop 2).length = post.length - 2 := by simp [List.length_drop]
  constructor
  · intro hmod
    rw [processResponse_found hsplit, if_neg (not_not_intro (by rw [hdl]; exact hmod))]
    obtain ⟨hclen, hcmem⟩ :=
      chunksOf_spec (chunkSize index) (post.drop 2) (chunkSize_pos index)
        (by rw [hdl]; exact hmod)
    rw [convertChunks_length_countP]
    have hall : ∀ ch ∈ chunksOf (chunkSize index) (post.drop 2),
        (decodeChunk (chunkSize index) ch).isSome = true := by
      intro ch hch
      obtain ⟨hl, hm⟩ := hcmem ch hch
      obtain ⟨v, hv⟩ := decodeChunk_allHex (chunkSize_cases index) hl
        (fun x hx => hhex x (List.drop_subset _ _ (hm x hx)))
      rw [hv]
      rfl
    rw [List.countP_eq_length.mpr hall, hclen, hdl]
  · intro hmod
    rw [processResponse_found hsplit, if_pos (by rw [hdl]; exact hmod)]

/-- Witness for C1 at a concrete frame: marker, residue byte `00`,
then one 8-hex-character chunk, giving exactly one decoded value. -/
theorem claim1_decode_count_witness :
    (("0041200000".toList.length - 2) % chunkSize 0 = 0) ∧
    (processResponse 0 "01030041200000".toList).length =
      ("0041200000".toList.length - 2) / chunkSize 0 := by
  refine ⟨by decide, ?_⟩
  exact (claim1_decode_count 0 "01030041200000".toList "0041200000".toList
    (by decide) (by decide)).1 (by decide)

/-- Counterexample to C1 as stated: a hex payload whose post-marker
length (8) is an exact multiple of slot 0's chunk size (8), for which
the claim promises `8 / 8 = 1` decoded value, while the decoder
returns the empty sequence (the code strips two further residue
characters before the divisibility check). -/
theorem claim1_counterexample :
    splitMarker "010341200000".toList = some "41200000".toList ∧
    "41200000".toList.length % chunkSize 0 = 0 ∧
    "41200000".toList.length / chunkSize 0 = 1 ∧
    processResponse 0 "010341200000".toList = [] := by decide

/-- **C8**: with the marker found and a valid payload length, the
decode loop skips each failing chunk individually: the result length
counts exactly the chunks whose decode succeeds, and every
successfully decoded chunk's value is returned even when other chunks
of the same payload fail. -/
theorem claim8_chunk_failures_skipped (index : Nat) (s post : List Char)
    (hsplit : splitMarker s = some post)
    (hmod : (post.drop 2).length % chunkSize index = 0) :
    (processResponse index s).length =
      (chunksOf (chunkSize index) (post.drop 2)).countP
        (fun c => (decodeChunk (chunkSize index) c).isSome) ∧
    ∀ ch ∈ chunksOf (chunkSize index) (post.drop 2), ∀ v : Int,
      decodeChunk (chunkSize index) ch = some v → v ∈ processResponse index s := by
  rw [processResponse_found hsplit, if_neg (not_not_intro hmod)]
  exact ⟨convertChunks_length_countP _ _,
    fun ch hch v hv => convertChunks_mem _ hch hv⟩

/-- Witness for C8: a two-chunk payload whose first chunk holds the
non-hex character `G` and fails, while the second chunk's value is
still returned (and is the only returned value). -/
theorem claim8_chunk_failures_skipped_witness :
    (1109917696 : Int) ∈ processResponse 0 "0103XX41G0000042280000".toList ∧
    (processResponse 0 "0103XX41G0000042280000".toList).length = 1 := by
  have h := claim8_chunk_failures_skipped 0 "0103XX41G0000042280000".toList
    "XX41G0000042280000".toList (by decide) (by decide)
  exact ⟨h.2 "42280000".toList (by decide) 1109917696 (by decide),
    by rw [h.1]; decide⟩

/-! ## Association-list lemmas -/

@[simp]
theorem aKeys_nil {κ α : Type} : aKeys ([] : List (κ × α)) = [] := rfl

@[simp]
theorem aKeys_cons {κ α : Type} (p : κ × α) (d : List (κ × α)) :
    aKeys (p :: d) = p.1 :: aKeys d := rfl

theorem aKeys_mem_aSet {κ α : Type} [DecidableEq κ] (d : List (κ × α)) (k : κ)
    (v : α) (x : κ) : x ∈ aKeys (aSet d k v) ↔ x ∈ aKeys d ∨ x = k := by
  induction d with
  | nil => simp [aSet]
  | cons p rest ih =>
    by_cases h : p.1 = k
    · subst h
      simp [aSet]
      tauto
    · simp [aSet, h, ih]
      tauto

theorem aSet_nodup {κ α : Type} [DecidableEq κ] {d : List (κ × α)} (k : κ) (v : α)
    (hnd : (aKeys d).Nodup) : (aKeys (aSet d k v)).Nodup := by
  induction d with
  | nil => simp [aSet]
  | cons p rest ih =>
    rw [aKeys_cons, List.nodup_cons] at hnd
    by_cases h : p.1 = k
    · subst h
      rw [aSet, if_pos rfl, aKeys_cons, List.nodup_cons]
      exact hnd
    · rw [aSet, if_neg h, aKeys_cons, List.nodup_cons]
      refine ⟨?_, ih hnd.2⟩
      intro hmem
      rcases (aKeys_mem_aSet rest k v p.1).mp hmem with hh | hh
      · exact hnd.1 hh
      · exact h hh

theorem aSet_length_or {κ α : Type} [DecidableEq κ] (d : List (κ × α)) (k : κ)
    (v : α) : (aSet d k v).length = d.length ∨ (aSet d k v).length = d.length + 1 := by
  induction d with
  | nil => simp [aSet]
  | cons p rest ih =>
    by_cases h : p.1 = k
    · simp [aSet, h]
    · rcases ih with hh | hh <;> simp [aSet, h, hh] <;> omega

/-- Pigeonhole: a duplicate-free list of three naturals below 3
contains 0, 1 and 2. -/
theorem keys_full_of_three {l : List Nat} (hnd : l.Nodup) (hlt : ∀ k ∈ l, k < 3)
    (hlen : l.length = 3) : 0 ∈ l ∧ 1 ∈ l ∧ 2 ∈ l := by
  have hcard : l.toFinset.card = 3 := by
    rw [List.toFinset_card_of_nodup hnd, hlen]
  have hsub : l.toFinset ⊆ ({0, 1, 2} : Finset Nat) := by
    intro x hx
    have := hlt x (List.mem_toFinset.mp hx)
    simp only [Finset.mem_insert, Finset.mem_singleton]
    omega
  have heq : l.toFinset = ({0, 1, 2} : Finset Nat) :=
    Finset.eq_of_subset_of_card_le hsub (by rw [hcard]; decide)
  refine ⟨?_, ?_, ?_⟩ <;>
    rw [← List.mem_toFinset, heq] <;> decide

/-! ## TCP session-handler lemmas -/

/-- Store effects emitted by a run that starts from a session with
duplicate-free slot keys below 3 and at most 2 entries always carry a
complete 3-slot map. -/
theorem runClient_store_inv (hb : List Nat) :
    ∀ (evs : List RecvEvent) (pos : Nat) (acc : AccMap),
      (aKeys acc).Nodup → (∀ k ∈ aKeys acc, k < 3) → acc.length ≤ 2 →
      ∀ m, TCPEffect.store m ∈ runClient hb pos acc evs →
        m.length = 3 ∧ 0 ∈ aKeys m ∧ 1 ∈ aKeys m ∧ 2 ∈ aKeys m
  | [], _, _ => by
    intro _ _ _ m hm
    simp [runClient] at hm
  | .timedOut :: _, _, _ => by
    intro _ _ _ m hm
    simp [runClient] at hm
  | [.bytes b], pos, acc => by
    intro hnd hlt hle m hm
    by_cases h0 : b = [] <;> by_cases h1 : b = hb <;>
      simp [runClient, h0, h1] at hm
  | .bytes b :: .timedOut :: rest, pos, acc => by
    intro hnd hlt hle m hm
    by_cases h0 : b = []
    · simp [runClient, h0] at hm
    by_cases h1 : b = hb
    · simp [runClient, h0, h1] at hm
    · simp only [runClient, if_neg h0, if_neg h1] at hm
      exact runClient_store_inv hb (.timedOut :: rest) pos acc hnd hlt hle m hm
  | .bytes b :: .bytes r :: rest2, pos, acc => by
    intro hnd hlt hle m hm
    by_cases h0 : b = []
    · simp [runClient, h0] at hm
    by_cases h1 : b = hb
    · subst h1
      simp only [runClient, if_neg h0, eq_self_iff_true, if_true] at hm
      rw [List.mem_cons] at hm
      rcases hm with h | hm
      · simp at h
      by_cases h2 : r = []
      · simp [h2] at hm
      rw [if_neg h2] at hm
      rcases hpv : processResponse (pos % 3) (hexUpper r) with _ | ⟨v, vs⟩
      · rw [hpv] at hm
        exact runClient_store_inv b rest2 (pos + 1) acc hnd hlt hle m hm
      · rw [hpv] at hm
        replace hm : TCPEffect.store m ∈
            (if (aSet acc (pos % 3) (v :: vs)).length = 3 then
              TCPEffect.store (aSet acc (pos % 3) (v :: vs)) ::
                runClient b (pos + 1) [] rest2
            else runClient b (pos + 1) (aSet acc (pos % 3) (v :: vs)) rest2) := hm
        by_cases h3 : (aSet acc (pos % 3) (v :: vs)).length = 3
        · rw [if_pos h3, List.mem_cons] at hm
          rcases hm with h | hm
          · have hmm : m = aSet acc (pos % 3) (v :: vs) := by
              cases h
              rfl
            subst hmm
            have hnd2 : (aKeys (aSet acc (pos % 3) (v :: vs))).Nodup :=
              aSet_nodup _ _ hnd
            have hlt2 : ∀ k ∈ aKeys (aSet acc (pos % 3) (v :: vs)), k < 3 := by
              intro x hx
              rcases (aKeys_mem_aSet acc (pos % 3) (v :: vs) x).mp hx with hh | hh
              · exact hlt x hh
              · subst hh
                exact Nat.mod_lt _ (by omega)
            have hkl : (aKeys (aSet acc (pos % 3) (v :: vs))).length = 3 := by
              simp only [aKeys, List.length_map]
              exact h3
            obtain ⟨m0, m1, m2⟩ := keys_full_of_three hnd2 hlt2 hkl
            exact ⟨h3, m0, m1, m2⟩
          · exact runClient_store_inv b rest2 (pos + 1) [] (by simp)
              (by simp) (by simp) m hm
        · rw [if_neg h3] at hm
          have hnd2 : (aKeys (aSet acc (pos % 3) (v :: vs))).Nodup :=
            aSet_nodup _ _ hnd
          have hlt2 : ∀ k ∈ aKeys (aSet acc (pos % 3) (v :: vs)), k < 3 := by
            intro x hx
            rcases (aKeys_mem_aSet acc (pos % 3) (v :: vs) x).mp hx with hh | hh
            · exact hlt x hh
            · subst hh
              exact Nat.mod_lt _ (by omega)
          have hle2 : (aSet acc (pos % 3) (v :: vs)).length ≤ 2 := by
            rcases aSet_length_or acc (pos % 3) (v :: vs) with hh | hh <;> omega
          exact runClient_store_inv b rest2 (pos + 1) _ hnd2 hlt2 hle2 m hm
    · simp only [runClient, if_neg h0, if_neg h1] at hm
      exact runClient_store_inv hb (.bytes r :: rest2) pos acc hnd hlt hle m hm

/-- **C2** (amended): in the heartbeat-gated receive loop, non-empty
bytes differing from the fixed heartbeat marker are logged and ignored
— no response is sent and the session continues unchanged with the
next packet; the connection closes (with no response) only on an empty
read or a timeout. -/
theorem claim2_bad_packet_ignored (hb : List Nat) (pos : Nat) (acc : AccMap)
    (b : List Nat) (rest : List RecvEvent) (hne : b ≠ []) (hnh : b ≠ hb) :
    runClient hb pos acc (.bytes b :: rest) = runClient hb pos acc rest ∧
    runClient hb pos acc (.bytes [] :: rest) = [] ∧
    runClient hb pos acc (.timedOut :: rest) = [] := by
  refine ⟨?_, ?_, rfl⟩
  · rcases rest with _ | ⟨ev, rest2⟩
    · simp [runClient, hne, hnh]
    · rcases ev with b2 | _ <;> simp [runClient, hne, hnh]
  · rcases rest with _ | ⟨ev, rest2⟩
    · simp [runClient]
    · rcases ev with b2 | _ <;> simp [runClient]

/-- Witness for C2 at a concrete bad packet. -/
theorem claim2_bad_packet_ignored_witness :
    runClient HEARTBEAT_PACKET 0 [] [.bytes [0x41], .bytes HEARTBEAT_PACKET] =
      runClient HEARTBEAT_PACKET 0 [] [.bytes HEARTBEAT_PACKET] := by
  exact (claim2_bad_packet_ignored HEARTBEAT_PACKET 0 [] [0x41]
    [.bytes HEARTBEAT_PACKET] (by decide) (by decide)).1

/-- Counterexample to C2 as stated: after receiving the non-heartbeat
byte `0x41` in the initial state, the session is not closed — the
subsequent heartbeat is still served with cycle frame 0, so the
connection was neither dropped nor left without a response. -/
theorem claim2_counterexample :
    runClient HEARTBEAT_PACKET 0 [] [.bytes [0x41], .bytes HEARTBEAT_PACKET] =
      [.send 0 (RESPONSE_PACKETS.getD 0 [])] := by decide

/-- **C3**: a store (persistence trigger) only ever carries a map
holding all three response slots (and so passes the internal length
guard of `_store_data`); a 1- or 2-key session never persists; and the
step that completes the third slot emits exactly one store and
continues from the cleared (empty) session. -/
theorem claim3_persist_only_complete (pos : Nat) (evs : List RecvEvent) :
    (∀ m, TCPEffect.store m ∈ runClient HEARTBEAT_PACKET pos [] evs →
      m.length = 3 ∧ 0 ∈ aKeys m ∧ 1 ∈ aKeys m ∧ 2 ∈ aKeys m ∧
      storeData m ≠ none) ∧
    (∀ (acc : AccMap) (r : List Nat) (rest2 : List RecvEvent) (v : Int)
        (vs : List Int), r ≠ [] →
      processResponse (pos % 3) (hexUpper r) = v :: vs →
      (aSet acc (pos % 3) (v :: vs)).length = 3 →
      runClient HEARTBEAT_PACKET pos acc
          (.bytes HEARTBEAT_PACKET :: .bytes r :: rest2) =
        .send (pos % 3) (RESPONSE_PACKETS.getD (pos % 3) []) ::
        .store (aSet acc (pos % 3) (v :: vs)) ::
        runClient HEARTBEAT_PACKET (pos + 1) [] rest2) := by
  constructor
  · intro m hm
    obtain ⟨h1, h2, h3, h4⟩ := runClient_store_inv HEARTBEAT_PACKET evs pos []
      (by simp) (by simp) (by simp) m hm
    refine ⟨h1, h2, h3, h4, ?_⟩
    simp [storeData, h1]
  · intro acc r rest2 v vs hr hpv h3
    have hhb : (HEARTBEAT_PACKET : List Nat) ≠ [] := by decide
    simp only [runClient, if_neg hhb, eq_self_iff_true, if_true, if_neg hr, hpv,
      if_pos h3]

/-- Witness for C3: a third-slot reply completing a 2-key session
triggers exactly one store of the full 3-slot map and clears the
session; the stored map passes the internal document guard. -/
theorem claim3_persist_only_complete_witness :
    storeData [((0 : Nat), [(1092616192 : Int)]), (1, [1093664768]),
      (2, [72623859790382856])] ≠ none ∧
    runClient HEARTBEAT_PACKET 2 [((0 : Nat), [(1092616192 : Int)]), (1, [1093664768])]
        [.bytes HEARTBEAT_PACKET, .bytes [1, 3, 0, 1, 2, 3, 4, 5, 6, 7, 8]] =
      [.send 2 (RESPONSE_PACKETS.getD 2 []),
       .store [((0 : Nat), [(1092616192 : Int)]), (1, [1093664768]),
         (2, [72623859790382856])]] := by
  constructor
  · exact ((claim3_persist_only_complete 0
      [.bytes HEARTBEAT_PACKET, .bytes [1, 3, 0, 0x41, 0x20, 0, 0],
       .bytes HEARTBEAT_PACKET, .bytes [1, 3, 0, 0x41, 0x30, 0, 0],
       .bytes HEARTBEAT_PACKET, .bytes [1, 3, 0, 1, 2, 3, 4, 5, 6, 7, 8]]).1
      [((0 : Nat), [(1092616192 : Int)]), (1, [1093664768]),
       (2, [72623859790382856])] (by decide)).2.2.2.2
  · have h := (claim3_persist_only_complete 2 []).2
      [((0 : Nat), [(1092616192 : Int)]), (1, [1093664768])]
      [1, 3, 0, 1, 2, 3, 4, 5, 6, 7, 8] [] 72623859790382856 []
      (by decide) (by decide) (by decide)
    simpa using h

/-- **C6**: the shared response cycle is a strict round-robin over the
3-frame list: the `k`-th pull returns index `k mod 3` with the matching
frame, over `n` pulls every index `j < 3` occurs `n / 3 + 1` times when
`j < n mod 3` and `n / 3` times otherwise (i.e. exactly `floor(n/3)` or
`ceil(n/3) = (n+2)/3` times), and consecutive pulls advance the index
by exactly one modulo 3 (no index duplicated or skipped). -/
theorem claim6_round_robin (n j : Nat) (hj : j < 3) :
    (pullIndexes n).count j = n / 3 + (if j < n % 3 then 1 else 0) ∧
    ((pullIndexes n).count j = n / 3 ∨ (pullIndexes n).count j = (n + 2) / 3) ∧
    (∀ k, (responseCycle k).1 = (k % 3, RESPONSE_PACKETS.getD (k % 3) [])) ∧
    (∀ k, (responseCycle (k + 1)).1.1 = ((responseCycle k).1.1 + 1) % 3) := by
  have hcount : ∀ m : Nat,
      (pullIndexes m).count j = m / 3 + (if j < m % 3 then 1 else 0) := by
    intro m
    induction m with
    | zero => simp [pullIndexes]
    | succ m ih =>
      have hstep : pullIndexes (m + 1) = pullIndexes m ++ [m % 3] := by
        simp [pullIndexes, List.range_succ, responseCycle]
      rw [hstep, List.count_append, ih, List.count_singleton']
      split_ifs <;> omega
  refine ⟨hcount n, ?_, fun k => rfl, fun k => ?_⟩
  · rw [hcount n]
    split_ifs with h
    · right
      omega
    · left
      omega
  · simp only [responseCycle]
    omega

/-- Witness for C6: 9 pulls yield exactly 3 occurrences of each index. -/
theorem claim6_round_robin_witness :
    (pullIndexes 9).count 0 = 3 ∧ (pullIndexes 9).count 1 = 3 ∧
    (pullIndexes 9).count 2 = 3 := by
  have h0 := (claim6_round_robin 9 0 (by decide)).1
  have h1 := (claim6_round_robin 9 1 (by decide)).1
  have h2 := (claim6_round_robin 9 2 (by decide)).1
  refine ⟨?_, ?_, ?_⟩
  · rw [h0]
    decide
  · rw [h1]
    decide
  · rw [h2]
    decide

/-- **C9**: a message on a topic outside the grid mapping that is
neither the environment nor the generator topic only logs a warning:
the session table is returned unchanged and no insert or broadcast is
emitted. -/
theorem claim9_unhandled_topic (vrt veny : PyDict → Option PyDict) (insOk : Bool)
    (now : J) (sessions : Sessions) (topic : String) (payload : PyDict)
    (hmap : aGet TOPIC_MAPPING topic = none) (henv : topic ≠ ENV_TOPIC)
    (hgen : topic ≠ GEN_TOPIC) :
    handleMessage vrt veny insOk now sessions topic payload =
      (sessions, [MEffect.logUnhandled topic]) := by
  simp only [handleMessage, hmap, if_neg henv, if_neg hgen]

/-- Witness for C9 at a concrete unknown topic. -/
theorem claim9_unhandled_topic_witness :
    handleMessage (fun _ => none) (fun _ => none) true J.jnull
        [("CCCL/PURBACHAL/ENM_01", [("a", J.jint 1)])] "sensors/other" [] =
      ([("CCCL/PURBACHAL/ENM_01", [("a", J.jint 1)])],
       [MEffect.logUnhandled "sensors/other"]) := by
  exact claim9_unhandled_topic (fun _ => none) (fun _ => none) true J.jnull
    [("CCCL/PURBACHAL/ENM_01", [("a", J.jint 1)])] "sensors/other" []
    (by decide) (by decide) (by decide)

/-- **C5**: a grid/meter fragment whose `isend` field does not equal
the sentinel `'1'` (by Python equality) triggers neither persistence
nor broadcast — the handler only merges it into the session; a
fragment bearing the sentinel always leaves the topic session empty
afterwards, whatever the abstract validator answers and whether or not
the insert succeeds. -/
theorem claim5_grid_end_marker (validate : PyDict → Option PyDict) (coll : String)
    (insOk : Bool) (now : J) (topic : String) (session payload : PyDict) :
    (pyEq ((aGet payload "isend").getD .jnull) (.jstr "1") = false →
      gridStep validate coll insOk now topic session payload =
        (aUpdate session payload, [])) ∧
    (pyEq ((aGet payload "isend").getD .jnull) (.jstr "1") = true →
      (gridStep validate coll insOk now topic session payload).1 = []) := by
  constructor
  · intro h
    simp [gridStep, h]
  · intro h
    simp only [gridStep, h, if_true]
    cases hid : aGet (aUpdate session payload) "id" with
    | none => simp
    | some idv =>
      cases hv : validate (aSet (aSet (aRemove (aUpdate session payload) "id")
          "device_id" idv) "timestamp" now) with
      | none => simp [hv]
      | some dump => cases insOk <;> simp [hv]

/-- Witness for C5: a non-sentinel fragment only merges; a sentinel
fragment clears the session even when validation fails. -/
theorem claim5_grid_end_marker_witness :
    gridStep (fun _ => none) "grid_rt_data" true (J.jtime 7) "MQTT_RT_DATA"
        [("a", J.jint 1)] [("b", J.jint 2)] =
      (aUpdate [("a", J.jint 1)] [("b", J.jint 2)], []) ∧
    (gridStep (fun _ => none) "grid_rt_data" true (J.jtime 7) "MQTT_RT_DATA"
        [("a", J.jint 1)] [("id", J.jstr "G"), ("isend", J.jstr "1")]).1 = [] := by
  constructor
  · exact (claim5_grid_end_marker (fun _ => none) "grid_rt_data" true (J.jtime 7)
      "MQTT_RT_DATA" [("a", J.jint 1)] [("b", J.jint 2)]).1 (by decide)
  · exact (claim5_grid_end_marker (fun _ => none) "grid_rt_data" true (J.jtime 7)
      "MQTT_RT_DATA" [("a", J.jint 1)]
      [("id", J.jstr "G"), ("isend", J.jstr "1")]).2 (by decide)

/-! ## Generator-handler lemmas -/

/-- The flat fragment document `{"timestamp": tp, **points}`. -/
def genDoc (dpd pts : PyDict) : PyDict :=
  aUpdate [("timestamp", (aGet dpd "tp").getD .jnull)] pts

/-- The device-id promotion
`session["device_id"] = session.pop("0", None)`. -/
def genPromote (s1 : PyDict) : PyDict :=
  aSet (aRemove s1 "0") "device_id" ((aGet s1 "0").getD .jnull)

/-- Characterization of the generator handler on a well-formed
fragment (a truthy dict data point whose point list flattens without
raising). -/
theorem genStep_run (insOk : Bool) (topic : String) (session payload : PyDict)
    (dp : J) (dpd pts : PyDict)
    (hdp : getDataPoint payload = .ok dp) (ht : truthy dp = true)
    (hobj : asObj dp = some dpd)
    (hpts : buildPoints ((aGet dpd "point").getD (.jarr [])) = some pts) :
    genStep insOk topic session payload =
      (if pyEq ((aGet session "timestamp").getD .jnull)
          ((aGet dpd "tp").getD .jnull) then
        (match genFromFlatDict (genPromote (aUpdate session (genDoc dpd pts))) with
         | .error _ => ([], [])
         | .ok v =>
           if insOk then
             ([], [MEffect.insert GEN_COLLECTION
                     (aRemove (genPromote (aUpdate session (genDoc dpd pts)))
                       "timestamp") true,
                   MEffect.broadcast topic (genDump v)])
           else
             ([], [MEffect.insert GEN_COLLECTION
                     (aRemove (genPromote (aUpdate session (genDoc dpd pts)))
                       "timestamp") false]))
      else (aUpdate session (genDoc dpd pts), [])) := by
  simp [genStep, genDoc, genPromote, hdp, ht, hobj, hpts]

/-- **C4** (amended): on the generator topic, a well-formed fragment
whose timestamp equals the session's stored timestamp (each read as
`None` when absent) takes the completion path: the fragment is merged,
the flattened key `"0"` is promoted into `device_id`, the merged flat
record is validated (a validation failure clears the session and
aborts with no persistence and no broadcast), the merged record — less
the `"timestamp"` key, which the validator pops from the dict that is
persisted — is inserted, the validated dump is broadcast, and the
session is cleared; when the timestamps differ the handler only merges
the fragment's fields over the session (later fields overwriting
earlier) with zero completions. -/
theorem claim4_generator_timestamp_correlation (insOk : Bool) (topic : String)
    (session payload : PyDict) (dp : J) (dpd pts : PyDict)
    (hdp : getDataPoint payload = .ok dp) (ht : truthy dp = true)
    (hobj : asObj dp = some dpd)
    (hpts : buildPoints ((aGet dpd "point").getD (.jarr [])) = some pts) :
    (pyEq ((aGet session "timestamp").getD .jnull)
        ((aGet dpd "tp").getD .jnull) = true →
      (∀ u, genFromFlatDict (genPromote (aUpdate session (genDoc dpd pts))) =
          .error u →
        genStep insOk topic session payload = ([], [])) ∧
      (∀ v, genFromFlatDict (genPromote (aUpdate session (genDoc dpd pts))) =
          .ok v →
        genStep insOk topic session payload =
          ([], if insOk then
            [MEffect.insert GEN_COLLECTION
               (aRemove (genPromote (aUpdate session (genDoc dpd pts)))
                 "timestamp") true,
             MEffect.broadcast topic (genDump v)]
          else
            [MEffect.insert GEN_COLLECTION
               (aRemove (genPromote (aUpdate session (genDoc dpd pts)))
                 "timestamp") false]))) ∧
    (pyEq ((aGet session "timestamp").getD .jnull)
        ((aGet dpd "tp").getD .jnull) = false →
      genStep insOk topic session payload =
        (aUpdate session (genDoc dpd pts), [])) := by
  rw [genStep_run insOk topic session payload dp dpd pts hdp ht hobj hpts]
  constructor
  · intro hpy
    rw [if_pos hpy]
    constructor
    · intro u hu
      rw [hu]
    · intro v hv
      rw [hv]
      cases insOk <;> simp
  · intro hpy
    rw [if_neg (by simp [hpy])]

/-- Counterexample to C4 as stated, in two parts.  First, with an
empty session (no timestamp stored) a fragment lacking `tp` does not
merely merge: the absent stored timestamp compares equal to the absent
fragment timestamp, the completion path runs, and the session comes
back empty instead of holding the merged fragment fields.  Second, on
a successful completion the persisted document is not the merged flat
record: the validator pops its `"timestamp"` key from the very dict
that is inserted, so the stored document lacks the timestamp. -/
theorem claim4_counterexample :
    (genStep true GEN_TOPIC []
        [("data", J.jarr [J.jobj [("point",
          J.jarr [J.jobj [("id", J.jint 5), ("val", J.jint 7)]])]])] =
      ([], []) ∧
      ([("timestamp", J.jnull), ("5", J.jint 7)] : PyDict) ≠ []) ∧
    (genStep true GEN_TOPIC [("timestamp", J.jint 5), ("0", J.jstr "D")]
        [("data", J.jarr [J.jobj [("tp", J.jint 5), ("point",
          J.jarr [J.jobj [("id", J.jint 7), ("val", J.jint 42)]])]])] =
      ([], [MEffect.insert "generator_data"
              [("7", J.jint 42), ("device_id", J.jstr "D")] true,
            MEffect.broadcast "CCCL/PURBACHAL/ENM_01"
              [("timestamp", J.jint 5), ("7", J.jint 42),
               ("device_id", J.jstr "D")]]) ∧
      aGet [("7", J.jint 42), ("device_id", J.jstr "D")] "timestamp" = none) := by
  exact ⟨⟨rfl, by simp⟩, ⟨rfl, rfl⟩⟩

/-- Witness for C4: a matching-timestamp second fragment completes,
persists and broadcasts (with the device id promoted and the metric
value present), and a differing-timestamp fragment only merges. -/
theorem claim4_generator_timestamp_correlation_witness :
    genStep true GEN_TOPIC [("timestamp", J.jint 5), ("0", J.jstr "D")]
        [("data", J.jarr [J.jobj [("tp", J.jint 5), ("point",
          J.jarr [J.jobj [("id", J.jint 7), ("val", J.jint 42)]])]])] =
      ([], [MEffect.insert GEN_COLLECTION
              [("7", J.jint 42), ("device_id", J.jstr "D")] true,
            MEffect.broadcast GEN_TOPIC
              [("timestamp", J.jint 5), ("7", J.jint 42),
               ("device_id", J.jstr "D")]]) ∧
    genStep true GEN_TOPIC [("timestamp", J.jint 5)]
        [("data", J.jarr [J.jobj [("tp", J.jint 6), ("point",
          J.jarr [J.jobj [("id", J.jint 7), ("val", J.jint 42)]])]])] =
      ([("timestamp", J.jint 6), ("7", J.jint 42)], []) := by
  constructor
  · exact ((claim4_generator_timestamp_correlation true GEN_TOPIC
      [("timestamp", J.jint 5), ("0", J.jstr "D")]
      [("data", J.jarr [J.jobj [("tp", J.jint 5), ("point",
        J.jarr [J.jobj [("id", J.jint 7), ("val", J.jint 42)]])]])]
      (J.jobj [("tp", J.jint 5), ("point",
        J.jarr [J.jobj [("id", J.jint 7), ("val", J.jint 42)]])])
      [("tp", J.jint 5), ("point",
        J.jarr [J.jobj [("id", J.jint 7), ("val", J.jint 42)]])]
      [("7", J.jint 42)] rfl rfl rfl rfl).1 rfl).2
      ⟨5, [("7", J.jint 42), ("device_id", J.jstr "D")]⟩ rfl
  · exact (claim4_generator_timestamp_correlation true GEN_TOPIC
      [("timestamp", J.jint 5)]
      [("data", J.jarr [J.jobj [("tp", J.jint 6), ("point",
        J.jarr [J.jobj [("id", J.jint 7), ("val", J.jint 42)]])]])]
      (J.jobj [("tp", J.jint 6), ("point",
        J.jarr [J.jobj [("id", J.jint 7), ("val", J.jint 42)]])])
      [("tp", J.jint 6), ("point",
        J.jarr [J.jobj [("id", J.jint 7), ("val", J.jint 42)]])]
      [("7", J.jint 42)] rfl rfl rfl rfl).2 rfl

/-! ## Further association-list lemmas (for the missing-timestamp claim) -/

theorem aGet_aSet_ne {κ α : Type} [DecidableEq κ] (d : List (κ × α)) (k : κ)
    (v : α) (k2 : κ) (h : k ≠ k2) : aGet (aSet d k v) k2 = aGet d k2 := by
  induction d with
  | nil => simp [aSet, aGet, h]
  | cons p rest ih =>
    by_cases hp : p.1 = k
    · subst hp
      simp [aSet, aGet, h, ih]
    · by_cases hp2 : p.1 = k2 <;> simp [aSet, aGet, hp, hp2, ih, Ne.symm h]

theorem aGet_aRemove_ne {κ α : Type} [DecidableEq κ] (d : List (κ × α)) (k k2 : κ)
    (h : k ≠ k2) : aGet (aRemove d k) k2 = aGet d k2 := by
  induction d with
  | nil => simp [aRemove]
  | cons p rest ih =>
    by_cases hp : p.1 = k
    · subst hp
      simp [aRemove, aGet, h, ih]
    · by_cases hp2 : p.1 = k2 <;> simp [aRemove, aGet, hp, hp2, ih, Ne.symm h]

theorem aGet_aUpdate_nofresh {κ α : Type} [DecidableEq κ] (d : List (κ × α))
    (d2 : List (κ × α)) (k : κ) (hn : aGet d2 k = none) :
    aGet (aUpdate d d2) k = aGet d k := by
  induction d2 generalizing d with
  | nil => rfl
  | cons p rest ih =>
    have hp : ¬ p.1 = k := by
      intro he
      rw [aGet, if_pos he] at hn
      cases hn
    have hrest : aGet rest k = none := by
      rw [aGet, if_neg hp] at hn
      exact hn
    have hstep : aUpdate d (p :: rest) = aUpdate (aSet d p.1 p.2) rest := rfl
    rw [hstep, ih _ hrest, aGet_aSet_ne _ _ _ _ hp]

theorem aSet_self_mem {κ α : Type} [DecidableEq κ] (d : List (κ × α)) (k : κ)
    (v : α) : (k, v) ∈ aSet d k v := by
  induction d with
  | nil => simp [aSet]
  | cons p rest ih =>
    by_cases hp : p.1 = k
    · simp [aSet, hp]
    · simp [aSet, hp]
      right
      exact ih

theorem aRemove_mem_ne {κ α : Type} [DecidableEq κ] {d : List (κ × α)} {k2 : κ}
    {v : α} (k : κ) (hm : (k2, v) ∈ d) (h : k2 ≠ k) : (k2, v) ∈ aRemove d k := by
  induction d with
  | nil => simp at hm
  | cons p rest ih =>
    rcases List.mem_cons.mp hm with he | hmem
    · subst he
      rw [aRemove, if_neg (by simpa using h)]
      simp
    · by_cases hp : p.1 = k
      · rw [aRemove, if_pos hp]
        exact hmem
      · rw [aRemove, if_neg hp]
        exact List.mem_cons_of_mem _ (ih hmem)

theorem aSet_append_not_mem {κ α : Type} [DecidableEq κ] (d : List (κ × α)) (k : κ)
    (v : α) (h : k ∉ aKeys d) : aSet d k v = d ++ [(k, v)] := by
  induction d with
  | nil => simp [aSet]
  | cons p rest ih =>
    simp only [aKeys_cons, List.mem_cons] at h
    push_neg at h
    rw [aSet, if_neg (fun he => h.1 he.symm), ih h.2]
    rfl

theorem aUpdate_nodup {κ α : Type} [DecidableEq κ] (d d2 : List (κ × α))
    (h : (aKeys d).Nodup) : (aKeys (aUpdate d d2)).Nodup := by
  induction d2 generalizing d with
  | nil => exact h
  | cons p rest ih => exact ih _ (aSet_nodup _ _ h)

theorem aUpdate_eq_append {κ α : Type} [DecidableEq κ] (d2 d : List (κ × α))
    (hdisj : ∀ k ∈ aKeys d2, k ∉ aKeys d) (hnd : (aKeys d2).Nodup) :
    aUpdate d d2 = d ++ d2 := by
  induction d2 generalizing d with
  | nil => simp [aUpdate]
  | cons p rest ih =>
    have hstep : aUpdate d (p :: rest) = aUpdate (aSet d p.1 p.2) rest := rfl
    have hp : p.1 ∉ aKeys d := hdisj p.1 (by simp)
    rw [hstep, aSet_append_not_mem _ _ _ hp, ih]
    · simp
    · intro k hk
      have hk2 : k ∈ aKeys (p :: rest) := by
        rw [aKeys_cons]
        exact List.mem_cons_of_mem _ hk
      have h1 : k ∉ aKeys d := hdisj k hk2
      have hnd2 : p.1 ∉ aKeys rest := by
        rw [aKeys_cons, List.nodup_cons] at hnd
        exact hnd.1
      have h2 : k ≠ p.1 := by
        intro he
        exact hnd2 (he ▸ hk)
      intro hmem
      rw [aKeys, List.map_append, List.mem_append] at hmem
      rcases hmem with hm | hm
      · exact h1 hm
      · simp at hm
        exact h2 hm
    · rw [aKeys_cons, List.nodup_cons] at hnd
      exact hnd.2

theorem aUpdate_nil_eq {κ α : Type} [DecidableEq κ] (d : List (κ × α))
    (hnd : (aKeys d).Nodup) : aUpdate [] d = d := by
  have h := aUpdate_eq_append d [] (by simp) hnd
  simpa using h

/-- **C10** (amended): on the generator topic, a fragment whose first
data-point entry is a non-empty dict lacking the `tp` field, arriving
while the topic session is empty, takes the completion path at once
(the absent stored timestamp, read as `None`, compares equal to the
fragment's absent timestamp), fails validation — provided the
flattened point ids do not themselves supply both a `"timestamp"`
entry and a `"0"` device-id entry — and leaves the session cleared
with nothing persisted and nothing broadcast. -/
theorem claim10_missing_tp_completion (insOk : Bool) (topic : String)
    (payload : PyDict) (dp : J) (dpd pts : PyDict)
    (hdp : getDataPoint payload = .ok dp) (ht : truthy dp = true)
    (hobj : asObj dp = some dpd) (htp : aGet dpd "tp" = none)
    (hpts : buildPoints ((aGet dpd "point").getD (.jarr [])) = some pts)
    (hadv : aGet pts "timestamp" = none ∨ aGet pts "0" = none) :
    pyEq ((aGet ([] : PyDict) "timestamp").getD .jnull)
        ((aGet dpd "tp").getD .jnull) = true ∧
    (∃ u, genFromFlatDict (genPromote (aUpdate [] (genDoc dpd pts))) =
      .error u) ∧
    genStep insOk topic [] payload = ([], []) := by
  have hpy : pyEq ((aGet ([] : PyDict) "timestamp").getD .jnull)
      ((aGet dpd "tp").getD .jnull) = true := by
    rw [htp]
    rfl
  have herr : ∃ u, genFromFlatDict (genPromote (aUpdate [] (genDoc dpd pts))) =
      .error u := by
    rcases hadv with hts | h0
    · have hdoc_ts : aGet (genDoc dpd pts) "timestamp" = some .jnull := by
        rw [genDoc, htp, aGet_aUpdate_nofresh _ _ _ hts]
        rfl
      have hnd : (aKeys (genDoc dpd pts)).Nodup := by
        rw [genDoc]
        exact aUpdate_nodup _ _ (by simp)
      have hnil : aUpdate ([] : PyDict) (genDoc dpd pts) = genDoc dpd pts :=
        aUpdate_nil_eq _ hnd
      have hs2 : aGet (genPromote (aUpdate [] (genDoc dpd pts))) "timestamp" =
          some .jnull := by
        rw [hnil, genPromote, aGet_aSet_ne _ _ _ _ (by decide),
          aGet_aRemove_ne _ _ _ (by decide), hdoc_ts]
      refine ⟨(), ?_⟩
      simp only [genFromFlatDict, hs2, Option.getD_some]
      split
      · rfl
      · rfl
    · have hdoc0 : aGet (genDoc dpd pts) "0" = none := by
        rw [genDoc, aGet_aUpdate_nofresh _ _ _ h0]
        rfl
      have hnull : aGet (aUpdate ([] : PyDict) (genDoc dpd pts)) "0" = none := by
        rw [aGet_aUpdate_nofresh _ _ _ hdoc0]
        rfl
      have hmem : ("device_id", J.jnull) ∈
          genPromote (aUpdate [] (genDoc dpd pts)) := by
        rw [genPromote, hnull]
        simp only [Option.getD_none]
        exact aSet_self_mem _ _ _
      have hmem2 : ("device_id", J.jnull) ∈
          aRemove (genPromote (aUpdate [] (genDoc dpd pts))) "timestamp" :=
        aRemove_mem_ne _ hmem (by decide)
      have hall : (aRemove (genPromote (aUpdate [] (genDoc dpd pts)))
          "timestamp").all (fun p => isScalar p.2) = false := by
        cases hb : (aRemove (genPromote (aUpdate [] (genDoc dpd pts)))
            "timestamp").all (fun p => isScalar p.2) with
        | false => rfl
        | true =>
          have := List.all_eq_true.mp hb _ hmem2
          simp [isScalar] at this
      refine ⟨(), ?_⟩
      simp [genFromFlatDict, hall]
  refine ⟨hpy, herr, ?_⟩
  obtain ⟨u, hu⟩ := herr
  rw [genStep_run insOk topic [] payload dp dpd pts hdp ht hobj hpts,
    if_pos hpy, hu]

/-- Witness for C10: a concrete tp-less fragment on an empty session
is dropped whole: cleared session, no persistence, no broadcast. -/
theorem claim10_missing_tp_completion_witness :
    genStep true GEN_TOPIC []
        [("data", J.jarr [J.jobj [("point",
          J.jarr [J.jobj [("id", J.jint 5), ("val", J.jint 7)]])]])] =
      ([], []) := by
  exact (claim10_missing_tp_completion true GEN_TOPIC
    [("data", J.jarr [J.jobj [("point",
      J.jarr [J.jobj [("id", J.jint 5), ("val", J.jint 7)]])]])]
    (J.jobj [("point", J.jarr [J.jobj [("id", J.jint 5), ("val", J.jint 7)]])])
    [("point", J.jarr [J.jobj [("id", J.jint 5), ("val", J.jint 7)]])]
    [("5", J.jint 7)] rfl rfl rfl rfl rfl (Or.inl rfl)).2.2

/-- **C7**: across all three topic handlers a broadcast to the
realtime group is emitted only for a record that passed validation
and only when the insert succeeded; no validation failure, missing
field or persistence failure ever produces a broadcast, and for the
environment topic the broadcast follows a successful insert of the
stamped payload (the effect trace is exactly insert-then-broadcast). -/
theorem claim7_broadcast_only_validated :
    (∀ (insOk : Bool) (now : J) (topic : String) (payload : PyDict) (t : String)
        (d : PyDict),
      MEffect.broadcast t d ∈ handleEnvData insOk now topic payload →
      insOk = true ∧ ∃ p v, envValidate p = some v ∧ d = envDump v ∧
        handleEnvData insOk now topic payload =
          [MEffect.insert ENV_COLLECTION p true, MEffect.broadcast t d]) ∧
    (∀ (insOk : Bool) (topic : String) (session payload : PyDict) (t : String)
        (d : PyDict),
      MEffect.broadcast t d ∈ (genStep insOk topic session payload).2 →
      insOk = true ∧ ∃ r v, genFromFlatDict r = .ok v ∧ d = genDump v) ∧
    (∀ (validate : PyDict → Option PyDict) (coll : String) (insOk : Bool)
        (now : J) (topic : String) (session payload : PyDict) (t : String)
        (d : PyDict),
      MEffect.broadcast t d ∈
        (gridStep validate coll insOk now topic session payload).2 →
      insOk = true ∧ ∃ s v, validate s = some v ∧ d = v) := by
  refine ⟨?_, ?_, ?_⟩
  · intro insOk now topic payload t d hm
    simp only [handleEnvData] at hm
    cases hv : envValidate (aSet payload "timestamp" now) with
    | none =>
      simp [hv] at hm
    | some v =>
      simp only [hv] at hm
      cases insOk with
      | false => simp at hm
      | true =>
        simp at hm
        obtain ⟨ht2, hd⟩ := hm
        subst ht2
        subst hd
        exact ⟨rfl, aSet payload "timestamp" now, v, hv, rfl,
          by simp [handleEnvData, hv]⟩
  · intro insOk topic session payload t d hm
    rcases hdp : getDataPoint payload with u | dp
    · simp [genStep, hdp] at hm
    · cases htr : truthy dp with
      | false => simp [genStep, hdp, htr] at hm
      | true =>
        rcases hobj : asObj dp with _ | dpd
        · simp [genStep, hdp, htr, hobj] at hm
        · rcases hb : buildPoints ((aGet dpd "point").getD (.jarr [])) with _ | pts
          · simp [genStep, hdp, htr, hobj, hb] at hm
          · rw [genStep_run insOk topic session payload dp dpd pts hdp htr hobj hb]
              at hm
            by_cases hpy : pyEq ((aGet session "timestamp").getD .jnull)
                ((aGet dpd "tp").getD .jnull) = true
            · rw [if_pos hpy] at hm
              rcases hv : genFromFlatDict
                  (genPromote (aUpdate session (genDoc dpd pts))) with u | v
              · rw [hv] at hm
                simp at hm
              · rw [hv] at hm
                cases insOk with
                | false => simp at hm
                | true =>
                  simp at hm
                  exact ⟨rfl, genPromote (aUpdate session (genDoc dpd pts)), v,
                    hv, hm.2⟩
            · rw [if_neg hpy] at hm
              simp at hm
  · intro validate coll insOk now topic session payload t d hm
    simp only [gridStep] at hm
    by_cases hpy : pyEq ((aGet payload "isend").getD .jnull) (.jstr "1") = true
    · rw [if_pos hpy] at hm
      rcases hid : aGet (aUpdate session payload) "id" with _ | idv
      · simp [hid] at hm
      · simp only [hid] at hm
        rcases hv : validate (aSet (aSet (aRemove (aUpdate session payload) "id")
            "device_id" idv) "timestamp" now) with _ | dump
        · simp [hv] at hm
        · simp only [hv] at hm
          cases insOk with
          | false => simp at hm
          | true =>
            simp at hm
            exact ⟨rfl, aSet (aSet (aRemove (aUpdate session payload) "id")
              "device_id" idv) "timestamp" now, dump, hv, hm.2⟩
    · rw [if_neg hpy] at hm
      simp at hm

/-- Witness for C7 at a concrete environment reading that validates
and whose insert succeeds: the broadcast is present and the trace is
exactly insert-then-broadcast. -/
theorem claim7_broadcast_only_validated_witness :
    (MEffect.broadcast ENV_TOPIC
        (envDump ⟨5, 9, 15, 60, 28, 19, J.jtime 0⟩) ∈
      handleEnvData true (J.jtime 0) ENV_TOPIC
        [("pm1_0(ug/m3)", J.jint 5), ("pm2_5(ug/m3)", J.jint 9),
         ("pm10_0(ug/m3)", J.jint 15), ("hum(%)", J.jint 60),
         ("temp_1(*C)", J.jint 28), ("dp(*C)", J.jint 19)]) ∧
    (true = true ∧ ∃ p v, envValidate p = some v ∧
      envDump ⟨5, 9, 15, 60, 28, 19, J.jtime 0⟩ = envDump v ∧
      handleEnvData true (J.jtime 0) ENV_TOPIC
          [("pm1_0(ug/m3)", J.jint 5), ("pm2_5(ug/m3)", J.jint 9),
           ("pm10_0(ug/m3)", J.jint 15), ("hum(%)", J.jint 60),
           ("temp_1(*C)", J.jint 28), ("dp(*C)", J.jint 19)] =
        [MEffect.insert ENV_COLLECTION p true,
         MEffect.broadcast ENV_TOPIC
           (envDump ⟨5, 9, 15, 60, 28, 19, J.jtime 0⟩)]) := by
  have hmem : MEffect.broadcast ENV_TOPIC
      (envDump ⟨5, 9, 15, 60, 28, 19, J.jtime 0⟩) ∈
      handleEnvData true (J.jtime 0) ENV_TOPIC
        [("pm1_0(ug/m3)", J.jint 5), ("pm2_5(ug/m3)", J.jint 9),
         ("pm10_0(ug/m3)", J.jint 15), ("hum(%)", J.jint 60),
         ("temp_1(*C)", J.jint 28), ("dp(*C)", J.jint 19)] :=
    List.Mem.tail _ (List.Mem.head _)
  exact ⟨hmem, claim7_broadcast_only_validated.1 true (J.jtime 0) ENV_TOPIC
    [("pm1_0(ug/m3)", J.jint 5), ("pm2_5(ug/m3)", J.jint 9),
     ("pm10_0(ug/m3)", J.jint 15), ("hum(%)", J.jint 60),
     ("temp_1(*C)", J.jint 28), ("dp(*C)", J.jint 19)] ENV_TOPIC
    (envDump ⟨5, 9, 15, 60, 28, 19, J.jtime 0⟩) hmem⟩

/-- Counterexample to C10 as stated: a tp-less fragment on an empty
session whose point list flattens to the keys `"0"` (supplying a
scalar device id) and `"timestamp"` (supplying a valid epoch value)
does pass validation on the completion path — the reading is persisted
and broadcast, contradicting the claim that nothing is ever persisted
or broadcast in this situation. -/
theorem claim10_counterexample :
    genStep true GEN_TOPIC []
        [("data", J.jarr [J.jobj [("point", J.jarr
          [J.jobj [("id", J.jint 0), ("val", J.jstr "X")],
           J.jobj [("id", J.jstr "timestamp"), ("val", J.jint 5)]])]])] =
      ([], [MEffect.insert "generator_data" [("device_id", J.jstr "X")] true,
            MEffect.broadcast "CCCL/PURBACHAL/ENM_01"
              [("timestamp", J.jint 5), ("device_id", J.jstr "X")]]) := by
  rfl

end GreenPower
